import Mathlib

/-!
Verification of the uniform-grid spatial index (a C++ template library).

The embedding translates the source headers (`vector2.hpp`, `rect.hpp`,
`utils/matrix.hpp`, `grid.hpp`) into Lean.  Modelling conventions:

* Floating-point coordinates (`T`, a `std::floating_point` type) are modelled
  as exact rationals `ℚ`; the claims are about the exact geometry of the
  algorithms, not about rounding.
* The validated build profile (`NDEBUG` not defined) is modelled: every
  `#ifndef NDEBUG` check from the source is present.
* Fallible operations return `Res α`: either `ok` with the value, or `err`
  with the error kind raised by `utils::thrower` (`runtimeError`,
  `invalidArgument`, `outOfRange`).  A fourth kind, `undefinedBehavior`,
  marks the places where the C++ source has undefined behavior even in the
  validated build: casting a negative (or infinite, from a zero cell
  dimension) floating-point value to `size_t` in `Grid::getCellIndex`, and
  the unchecked `Matrix::operator()` access with a caller-supplied
  out-of-range `body_cell_index` in `Grid::queryDistance`.
* `std::shared_ptr<Body>` handles are compared by address in the source
  (`ptr.get() == &body`, `std::hash<body_ptr_t>`); handles are modelled as
  values of a type `Body` with decidable equality standing for pointer
  identity.  A `cell_t&` reference argument is modelled as the `(row, col)`
  index of the cell it refers to; distinct in-range indices denote distinct
  addresses in the row-major `utils::Matrix` backing store.
* `std::size_t` counters are modelled as `ℕ`; `num_bodies -= removed_count`
  uses truncated subtraction, which agrees with `size_t` arithmetic whenever
  `removed_count ≤ num_bodies` (guaranteed by the body-count invariant).
* The `std::unordered_set` result of `queryDistancePair` is modelled as a
  list in which an element is inserted only if no element equal to it under
  `symmetric_pair_equal` is already present; this is the observable content
  of the hash set given that `symmetric_pair_hash` is consistent with the
  equality (proved below).
-/

namespace Spatial

/-- `spatial::Vector2<T>` from `vector2.hpp`: a 2D coordinate. -/
structure Vector2 where
  x : ℚ
  y : ℚ
deriving DecidableEq

/-- `Vector2::operator-` (componentwise subtraction). -/
def Vector2.sub (a b : Vector2) : Vector2 := ⟨a.x - b.x, a.y - b.y⟩

/-- `Vector2::cwiseMul`: componentwise product. -/
def Vector2.cwiseMul (a b : Vector2) : Vector2 := ⟨a.x * b.x, a.y * b.y⟩

/-- `Vector2::cwiseDiv`: componentwise quotient.  The debug zero-divisor
check is stated separately (`cwiseDivOk`); the only call site inside `Grid`
divides by `(columns, rows)`, which the `Grid` invariant keeps nonzero. -/
def Vector2.cwiseDiv (a b : Vector2) : Vector2 := ⟨a.x / b.x, a.y / b.y⟩

/-- `Vector2::dot`. -/
def Vector2.dot (a b : Vector2) : ℚ := a.x * b.x + a.y * b.y

/-- `Vector2::distance2`: `pow(other.x - x, 2) + pow(other.y - y, 2)`. -/
def Vector2.distance2 (a b : Vector2) : ℚ := (b.x - a.x) ^ 2 + (b.y - a.y) ^ 2

/-- `spatial::Rect<T>` from `rect.hpp`. -/
structure Rect where
  position : Vector2
  size : Vector2
deriving DecidableEq

def Rect.left (r : Rect) : ℚ := r.position.x

def Rect.top (r : Rect) : ℚ := r.position.y

def Rect.right (r : Rect) : ℚ := r.position.x + r.size.x

def Rect.bottom (r : Rect) : ℚ := r.position.y + r.size.y

/-- `Rect::contains`: inclusive bound test on both axes. -/
def Rect.contains (r : Rect) (p : Vector2) : Prop :=
  r.left ≤ p.x ∧ p.x ≤ r.right ∧ r.top ≤ p.y ∧ p.y ≤ r.bottom

instance (r : Rect) (p : Vector2) : Decidable (r.contains p) := by
  unfold Rect.contains; infer_instance

/-- The error kinds of `utils/thrower.hpp`, plus a marker for the spots
where the C++ source has undefined behavior in the validated build. -/
inductive Err where
  | runtimeError
  | invalidArgument
  | outOfRange
  | undefinedBehavior
deriving DecidableEq

/-- Result of a fallible operation: the C++ function either returns a value
or throws (unwinding to the caller). -/
inductive Res (α : Type) where
  | ok (a : α)
  | err (e : Err)
deriving DecidableEq

/-- Truncation toward zero, the semantics of C++ `static_cast<size_t>` on a
nonnegative floating value (for a negative truncated value the cast target
cannot represent it for magnitudes ≥ 1, and `getCellIndex` treats the whole
negative range as `undefinedBehavior`; values in `(-1, 0]` truncate to `0`,
which the cast does represent). -/
def truncToZero (q : ℚ) : ℤ := if 0 ≤ q then ⌊q⌋ else ⌈q⌉

/-- `spatial::Grid<T, Body, PositionGetter>` from `grid.hpp`.  `cells` is the
`utils::Matrix<cell_t>` backing store, addressed by `(row, column)` (the
matrix is fixed-size; only indices below `(rows, columns)` are ever touched
by the source).  `posOf` is the caller-supplied `PositionGetter`.  The
`rows_pos`/`columns_pos` fields are the constructor's validated-build
invariant `rows > 0 && columns > 0`. -/
structure Grid (Body : Type) where
  bound : Rect
  rows : ℕ
  columns : ℕ
  rows_pos : 0 < rows
  columns_pos : 0 < columns
  cells : ℕ × ℕ → List Body
  posOf : Body → Vector2
  num_bodies : ℕ

namespace Grid

variable {Body : Type}

/-- `Grid::cellSize`: `bound.size.cwiseDiv({columns, rows})`. -/
def cellSize (g : Grid Body) : Vector2 :=
  g.bound.size.cwiseDiv ⟨(g.columns : ℚ), (g.rows : ℚ)⟩

/-- The row computed by `Grid::getCellIndex` before the cast:
`relative_position.y / cell_size.y`, truncated toward zero. -/
def rawRow (g : Grid Body) (p : Vector2) : ℤ :=
  truncToZero ((p.sub g.bound.position).y / g.cellSize.y)

/-- The column computed by `Grid::getCellIndex` before the cast:
`relative_position.x / cell_size.x`, truncated toward zero. -/
def rawCol (g : Grid Body) (p : Vector2) : ℤ :=
  truncToZero ((p.sub g.bound.position).x / g.cellSize.x)

/-- `Grid::getCellIndex` on a position (validated build).  A zero cell
dimension makes the quotient infinite or NaN and a negative quotient
truncates below zero; in both cases the `static_cast<std::size_t>` is
undefined behavior.  Otherwise the debug check fails with `out_of_range`
when `row >= rows || col >= columns`. -/
def getCellIndexPos (g : Grid Body) (p : Vector2) : Res (ℕ × ℕ) :=
  if g.cellSize.x = 0 ∨ g.cellSize.y = 0 then .err .undefinedBehavior
  else if g.rawRow p < 0 ∨ g.rawCol p < 0 then .err .undefinedBehavior
  else if g.rows ≤ (g.rawRow p).toNat ∨ g.columns ≤ (g.rawCol p).toNat then .err .outOfRange
  else .ok ((g.rawRow p).toNat, (g.rawCol p).toNat)

/-- `Grid::getCellIndex(body)`: index the body's current reported position. -/
def getCellIndex (g : Grid Body) (b : Body) : Res (ℕ × ℕ) :=
  g.getCellIndexPos (g.posOf b)

/-- `Grid::getBodyCount`. -/
def getBodyCount (g : Grid Body) : ℕ := g.num_bodies

/-- `Grid::addBody`: computes the target cell via `getBodyCell`, appends the
handle (`emplace_back`), increments `num_bodies`, and returns the cell the
handle now lives in. -/
def addBody [DecidableEq Body] (g : Grid Body) (b : Body) :
    Res (Grid Body × (ℕ × ℕ)) :=
  match g.getCellIndex b with
  | .err e => .err e
  | .ok rc =>
      .ok ({ g with
              cells := Function.update g.cells rc (g.cells rc ++ [b]),
              num_bodies := g.num_bodies + 1 }, rc)

/-- `Grid::removeBody(body, body_cell)`: `remove_if` erases every handle of
the cell whose address equals `&body` and returns how many were erased;
`num_bodies -= removed_count`.  Never throws (`noexcept`). -/
def removeBody [DecidableEq Body] (g : Grid Body) (b : Body) (idx : ℕ × ℕ) :
    Grid Body × ℕ :=
  ({ g with
      cells := Function.update g.cells idx ((g.cells idx).filter fun x => decide (¬x = b)),
      num_bodies := g.num_bodies - (g.cells idx).countP fun x => decide (x = b) },
    (g.cells idx).countP fun x => decide (x = b))

/-- `Grid::clearAllBodies`: clears every in-range cell and resets the count. -/
def clearAllBodies (g : Grid Body) : Grid Body :=
  { g with
      cells := fun rc => if rc.1 < g.rows ∧ rc.2 < g.columns then [] else g.cells rc,
      num_bodies := 0 }

/-- `Grid::updateBodyCell(body, previous_cell)`: recompute the target cell;
if it is the same cell reference, return it unchanged; otherwise locate the
handle in `previous_cell` by address (first match of `find_if`), failing
with `out_of_range` when absent (validated build), and `splice` it to the
end of the new cell. -/
def updateBodyCell [DecidableEq Body] (g : Grid Body) (b : Body) (prev : ℕ × ℕ) :
    Res (Grid Body × (ℕ × ℕ)) :=
  match g.getCellIndex b with
  | .err e => .err e
  | .ok rc =>
      if rc = prev then .ok (g, rc)
      else if b ∈ g.cells prev then
        .ok ({ g with
                cells := Function.update (Function.update g.cells prev ((g.cells prev).erase b))
                  rc (g.cells rc ++ [b]) }, rc)
      else .err .outOfRange

end Grid

/-- `Grid::symmetric_pair_hash`: `hash(pair[0]) ^ hash(pair[1])`, over an
arbitrary per-handle hash `h` (the C++ `std::hash<shared_ptr<Body>>`). -/
def symmetric_pair_hash {Body : Type} (h : Body → ℕ) (p : Body × Body) : ℕ :=
  h p.1 ^^^ h p.2

/-- `Grid::symmetric_pair_equal`:
`(p1[0]==p2[0] && p1[1]==p2[1]) || (p1[0]==p2[1] && p1[1]==p2[0])`. -/
def symmetric_pair_equal {Body : Type} [DecidableEq Body] (p q : Body × Body) : Bool :=
  decide ((p.1 = q.1 ∧ p.2 = q.2) ∨ (p.1 = q.2 ∧ p.2 = q.1))

/-- One `result.emplace(...)` on the `unordered_set` keyed by
`symmetric_pair_hash`/`symmetric_pair_equal`: the pair is added only when no
element already in the set compares equal to it. -/
def insertPair {Body : Type} [DecidableEq Body] (s : List (Body × Body)) (p : Body × Body) :
    List (Body × Body) :=
  if s.any fun q => symmetric_pair_equal q p then s else p :: s

/-- Membership up to `symmetric_pair_equal`: how the `unordered_set` keyed
by the symmetric equality decides whether it already contains a pair. -/
def symMem {Body : Type} [DecidableEq Body] (p : Body × Body)
    (s : List (Body × Body)) : Prop :=
  ∃ q ∈ s, symmetric_pair_equal p q = true

instance {Body : Type} [DecidableEq Body] (p : Body × Body) (s : List (Body × Body)) :
    Decidable (symMem p s) := by
  unfold symMem; infer_instance

/-- The index pairs `(i, j)` with `i < j` of the inner double loop of
`queryDistancePair`, in iteration order. -/
def pairsOf {α : Type} : List α → List (α × α)
  | [] => []
  | x :: xs => (xs.map fun y => (x, y)) ++ pairsOf xs

/-- Body of the double loop of `queryDistancePair`: `if (is_nearby(...))
result.emplace(...)`. -/
def pairStep {Body : Type} [DecidableEq Body] (near : Body → Body → Bool)
    (s : List (Body × Body)) (p : Body × Body) : List (Body × Body) :=
  if near p.1 p.2 then insertPair s p else s

namespace Grid

variable {Body : Type}

/-- `is_nearby` of `queryDistancePair`:
`PositionGetter()(body1).distance2(PositionGetter()(body2)) <= pow(distance, 2)`. -/
def nearbyPair (g : Grid Body) (d : ℚ) (a b : Body) : Bool :=
  decide (Vector2.distance2 (g.posOf a) (g.posOf b) ≤ d ^ 2)

/-- `check_bodies` gathered at sweep position `(row, col)`: the current,
left, top and top-left cells concatenated in source order. -/
def sweepCells (g : Grid Body) (rc : ℕ × ℕ) : List Body :=
  g.cells rc ++ g.cells (rc.1, rc.2 - 1) ++ g.cells (rc.1 - 1, rc.2) ++ g.cells (rc.1 - 1, rc.2 - 1)

/-- The sweep positions of `queryDistancePair`, in loop order:
`row` from `1` to `rows - 1`, inner `col` from `1` to `columns - 1`. -/
def sweepPositions (g : Grid Body) : List (ℕ × ℕ) :=
  (List.range' 1 (g.rows - 1)).flatMap fun row =>
    (List.range' 1 (g.columns - 1)).map fun col => (row, col)

/-- The set built by the sweep of `queryDistancePair` (the function after
its debug precondition check).  The source's `reserve_size == 0` `continue`
only skips work that contributes nothing and needs no modelling. -/
def queryDistancePairList [DecidableEq Body] (g : Grid Body) (d : ℚ) :
    List (Body × Body) :=
  g.sweepPositions.foldl
    (fun acc rc => (pairsOf (g.sweepCells rc)).foldl (pairStep (g.nearbyPair d)) acc) []

/-- `Grid::queryDistancePair` (validated build): fails with
`invalid_argument` when `distance > min(cell_x, cell_y)`. -/
def queryDistancePair [DecidableEq Body] (g : Grid Body) (d : ℚ) :
    Res (List (Body × Body)) :=
  if min g.cellSize.x g.cellSize.y < d then .err .invalidArgument
  else .ok (g.queryDistancePairList d)

/-- The `adjacent_offsets` array of `queryDistance`, in source order; each
entry is `(dx, dy)` and `translate_cell` sends it to
`(center_row + dy, center_column + dx)`. -/
def adjacentOffsets : List (ℤ × ℤ) :=
  [(-1, -1), (-1, 0), (-1, 1), (0, -1), (0, 1), (1, -1), (1, 0), (1, 1)]

/-- `is_nearby` of `queryDistance`:
`PositionGetter()(other).distance2(body_position) <= distance_square`. -/
def nearbyTo (g : Grid Body) (bp : Vector2) (d : ℚ) (x : Body) : Bool :=
  decide (Vector2.distance2 (g.posOf x) bp ≤ d ^ 2)

/-- `queried_body_in_same_cell` of `queryDistance`: the queried body's own
cell filtered by `ptr.get() != &body && is_nearby(*ptr)`. -/
def queriedInSameCell [DecidableEq Body] (g : Grid Body) (b : Body) (idx : ℕ × ℕ)
    (d : ℚ) : List Body :=
  (g.cells idx).filter fun x => decide (¬x = b) && g.nearbyTo (g.posOf b) d x

/-- The adjacent pipeline of `queryDistance` up to the cell lookup:
`adjacent_offsets`, `translate_cell`, `is_cell_within_bound`. -/
def adjacentCellIndices (g : Grid Body) (idx : ℕ × ℕ) : List (ℤ × ℤ) :=
  (adjacentOffsets.map fun o => ((idx.1 : ℤ) + o.2, (idx.2 : ℤ) + o.1)).filter
    fun rc => decide (0 ≤ rc.1 ∧ rc.1 < (g.rows : ℤ) ∧ 0 ≤ rc.2 ∧ rc.2 < (g.columns : ℤ))

/-- `queried_body_in_adjacent_cell` of `queryDistance`, flattened as the
final insertion loop does: for each surviving adjacent cell, its bodies
filtered by `is_nearby`. -/
def queriedInAdjacentCells [DecidableEq Body] (g : Grid Body) (bp : Vector2) (d : ℚ)
    (idx : ℕ × ℕ) : List Body :=
  (g.adjacentCellIndices idx).flatMap
    fun rc => (g.cells (rc.1.toNat, rc.2.toNat)).filter (g.nearbyTo bp d)

/-- `Grid::queryDistance` (validated build): fails with `invalid_argument`
when `distance > min(cell_x, cell_y)`; then collects from the queried
body's own cell (excluding the body itself by address) and from the up to
8 grid-adjacent cells (those within bound), keeping the bodies whose
squared distance from the queried body is within `pow(distance, 2)`.
Reading `cells(body_cell_index[0], body_cell_index[1])` through the
unchecked `Matrix::operator()` with an out-of-range index is undefined
behavior in the source and is marked as such. -/
def queryDistance [DecidableEq Body] (g : Grid Body) (b : Body) (idx : ℕ × ℕ) (d : ℚ) :
    Res (List Body) :=
  if min g.cellSize.x g.cellSize.y < d then .err .invalidArgument
  else if g.rows ≤ idx.1 ∨ g.columns ≤ idx.2 then .err .undefinedBehavior
  else .ok (g.queriedInSameCell b idx d ++ g.queriedInAdjacentCells (g.posOf b) d idx)

/-- §3 invariant: every body handle present in the Grid resides in the cell
computed by `getCellIndex` from its current reported position. -/
def wellPlaced (g : Grid Body) : Prop :=
  ∀ r, r < g.rows → ∀ c, c < g.columns → ∀ b ∈ g.cells (r, c),
    g.getCellIndex b = .ok (r, c)

instance [DecidableEq Body] (g : Grid Body) : Decidable g.wellPlaced := by
  unfold wellPlaced; infer_instance

/-- A body handle is present somewhere in the Grid. -/
def inGrid (g : Grid Body) (b : Body) : Prop :=
  ∃ rc : ℕ × ℕ, rc.1 < g.rows ∧ rc.2 < g.columns ∧ b ∈ g.cells rc

/-- The sum of all cell sizes (what the §3 `num_bodies` invariant equates
with `getBodyCount`). -/
def cellSum (g : Grid Body) : ℕ :=
  ∑ rc ∈ Finset.range g.rows ×ˢ Finset.range g.columns, (g.cells rc).length

/-- §3 invariant: `num_bodies` always equals the sum of all cell sizes. -/
def countInv (g : Grid Body) : Prop := g.getBodyCount = g.cellSum

instance (g : Grid Body) : Decidable g.countInv := by
  unfold countInv; infer_instance

end Grid

/-! ### Concrete grids used by witnesses and counterexamples -/

/-- The §8 scenario grid: a 100×100 bound at the origin, 10 rows and 5
columns.  Body `0` reports position `(14.4, 20.8)`, body `1` the far corner
`(100, 100)`, body `2` the outside position `(-10, 5)`. -/
def gridScenario : Grid ℕ where
  bound := ⟨⟨0, 0⟩, ⟨100, 100⟩⟩
  rows := 10
  columns := 5
  rows_pos := by decide
  columns_pos := by decide
  cells := fun _ => []
  posOf := fun n => if n = 0 then ⟨14.4, 20.8⟩ else if n = 1 then ⟨100, 100⟩ else ⟨-10, 5⟩
  num_bodies := 0

/-- A single-cell grid (1 row, 1 column over a 10×10 bound) holding the two
bodies `0` at `(1, 1)` and `1` at `(3/2, 1)` in its only cell. -/
def gridOneCell : Grid ℕ where
  bound := ⟨⟨0, 0⟩, ⟨10, 10⟩⟩
  rows := 1
  columns := 1
  rows_pos := by decide
  columns_pos := by decide
  cells := fun rc => if rc = (0, 0) then [0, 1] else []
  posOf := fun n => if n = 0 then ⟨1, 1⟩ else ⟨3 / 2, 1⟩
  num_bodies := 2

/-- A 2×2 grid over a 4×4 bound, with body `0` at `(19/10, 19/10)` in cell
`(0, 0)` and body `1` at `(21/10, 21/10)` in cell `(1, 1)`. -/
def gridTwoByTwo : Grid ℕ where
  bound := ⟨⟨0, 0⟩, ⟨4, 4⟩⟩
  rows := 2
  columns := 2
  rows_pos := by decide
  columns_pos := by decide
  cells := fun rc => if rc = (0, 0) then [0] else if rc = (1, 1) then [1] else []
  posOf := fun n => if n = 0 then ⟨19 / 10, 19 / 10⟩ else ⟨21 / 10, 21 / 10⟩
  num_bodies := 2

/-! ### Helper lemmas: truncation toward zero -/

theorem truncToZero_mono {u v : ℚ} (h : u ≤ v) : truncToZero u ≤ truncToZero v := by
  unfold truncToZero
  split_ifs with hu hv hv
  · exact Int.floor_mono h
  · exact absurd (le_trans hu h) hv
  · exact le_trans (Int.ceil_le.mpr (by exact_mod_cast le_of_not_le hu))
      (Int.le_floor.mpr (by exact_mod_cast hv))
  · exact Int.ceil_mono h

theorem truncToZero_add_one_le (u : ℚ) : truncToZero (u + 1) ≤ truncToZero u + 1 := by
  unfold truncToZero
  split_ifs with h1 h2 h2
  · rw [Int.floor_add_one]
  · rw [Int.floor_add_one]
    exact add_le_add_right (Int.floor_le_ceil u) 1
  · exact absurd (le_trans h2 (by linarith)) h1
  · rw [Int.ceil_add_one]

theorem truncToZero_le_add_one {u v : ℚ} (h : u ≤ v + 1) :
    truncToZero u ≤ truncToZero v + 1 :=
  le_trans (truncToZero_mono h) (truncToZero_add_one_le v)

/-! ### Helper lemmas: cell indexing -/

namespace Grid

variable {Body : Type}

theorem getCellIndexPos_ok_elim {g : Grid Body} {p : Vector2} {rc : ℕ × ℕ}
    (h : g.getCellIndexPos p = .ok rc) :
    g.cellSize.x ≠ 0 ∧ g.cellSize.y ≠ 0 ∧
      (rc.1 : ℤ) = g.rawRow p ∧ (rc.2 : ℤ) = g.rawCol p ∧
      rc.1 < g.rows ∧ rc.2 < g.columns := by
  unfold getCellIndexPos at h
  split_ifs at h with h1 h2 h3
  push_neg at h1 h2 h3
  cases h
  refine ⟨h1.1, h1.2, ?_, ?_, h3.1, h3.2⟩
  · exact Int.toNat_of_nonneg h2.1
  · exact Int.toNat_of_nonneg h2.2

theorem queryDistancePair_ok [DecidableEq Body] {g : Grid Body} {d : ℚ}
    (h : d ≤ min g.cellSize.x g.cellSize.y) :
    g.queryDistancePair d = .ok (g.queryDistancePairList d) := by
  unfold queryDistancePair
  rw [if_neg (not_lt.mpr h)]

end Grid

/-! ### Helper lemmas: lists and folds -/

theorem flatMap_const_nil {α β : Type} (l : List α) :
    (l.flatMap fun _ => ([] : List β)) = [] := by
  induction l with
  | nil => rfl
  | cons x xs ih => simp [List.flatMap_cons, ih]

theorem foldl_preserve {α σ : Type} (P : σ → Prop) {f : σ → α → σ}
    (hf : ∀ s x, P s → P (f s x)) :
    ∀ (l : List α) (s : σ), P s → P (l.foldl f s) := by
  intro l
  induction l with
  | nil => intro s hs; exact hs
  | cons x xs ih => intro s hs; exact ih (f s x) (hf s x hs)

theorem foldl_reach {α σ : Type} (P : σ → Prop) {f : σ → α → σ} {x : α}
    (hf : ∀ s y, P s → P (f s y)) (hx : ∀ s, P (f s x)) :
    ∀ (l : List α) (s : σ), x ∈ l → P (l.foldl f s) := by
  intro l
  induction l with
  | nil => intro s hs; cases hs
  | cons y ys ih =>
      intro s hs
      rcases List.mem_cons.mp hs with h | h
      · subst h; exact foldl_preserve P hf ys (f s x) (hx s)
      · exact ih (f s y) h

theorem symmetric_pair_equal_comm {Body : Type} [DecidableEq Body] (p q : Body × Body) :
    symmetric_pair_equal p q = symmetric_pair_equal q p := by
  unfold symmetric_pair_equal
  rw [decide_eq_decide]
  constructor
  · rintro (⟨h1, h2⟩ | ⟨h1, h2⟩)
    · exact Or.inl ⟨h1.symm, h2.symm⟩
    · exact Or.inr ⟨h2.symm, h1.symm⟩
  · rintro (⟨h1, h2⟩ | ⟨h1, h2⟩)
    · exact Or.inl ⟨h1.symm, h2.symm⟩
    · exact Or.inr ⟨h2.symm, h1.symm⟩

theorem insertPair_pairwise {Body : Type} [DecidableEq Body] {s : List (Body × Body)}
    (hs : s.Pairwise fun p q => symmetric_pair_equal p q = false) (p : Body × Body) :
    (insertPair s p).Pairwise fun p q => symmetric_pair_equal p q = false := by
  unfold insertPair
  split_ifs with h
  · exact hs
  · refine List.Pairwise.cons (fun q hq => ?_) hs
    rw [symmetric_pair_equal_comm]
    by_cases hb : symmetric_pair_equal q p = true
    · exact absurd (List.any_eq_true.mpr ⟨q, hq, hb⟩) h
    · exact Bool.not_eq_true _ ▸ hb

theorem pairStep_pairwise {Body : Type} [DecidableEq Body] (near : Body → Body → Bool)
    {s : List (Body × Body)}
    (hs : s.Pairwise fun p q => symmetric_pair_equal p q = false) (p : Body × Body) :
    (pairStep near s p).Pairwise fun p q => symmetric_pair_equal p q = false := by
  unfold pairStep
  split_ifs with h
  · exact insertPair_pairwise hs p
  · exact hs

namespace Grid

variable {Body : Type}

theorem queryDistancePairList_pairwise [DecidableEq Body] (g : Grid Body) (d : ℚ) :
    (g.queryDistancePairList d).Pairwise fun p q => symmetric_pair_equal p q = false := by
  unfold queryDistancePairList
  refine foldl_preserve
    (fun t : List (Body × Body) => t.Pairwise fun p q => symmetric_pair_equal p q = false)
    (fun s rc hs => ?_) g.sweepPositions [] List.Pairwise.nil
  exact foldl_preserve
    (fun t : List (Body × Body) => t.Pairwise fun p q => symmetric_pair_equal p q = false)
    (fun s' p hs' => pairStep_pairwise _ hs' p) (pairsOf (g.sweepCells rc)) s hs

end Grid

/-! ### Helper lemmas: geometry of the cell index -/

theorem Vector2.distance2_comm (a b : Vector2) :
    Vector2.distance2 a b = Vector2.distance2 b a := by
  unfold Vector2.distance2
  ring

theorem abs_le_of_sq_le_sq {a d : ℚ} (hd : 0 ≤ d) (h : a ^ 2 ≤ d ^ 2) : |a| ≤ d := by
  rcases abs_cases a with ⟨he, -⟩ | ⟨he, -⟩ <;> rw [he] <;> nlinarith

theorem dist2_le_x {p q : Vector2} {d : ℚ} (hd : 0 ≤ d)
    (h : Vector2.distance2 p q ≤ d ^ 2) : |q.x - p.x| ≤ d := by
  apply abs_le_of_sq_le_sq hd
  unfold Vector2.distance2 at h
  nlinarith [sq_nonneg (q.y - p.y)]

theorem dist2_le_y {p q : Vector2} {d : ℚ} (hd : 0 ≤ d)
    (h : Vector2.distance2 p q ≤ d ^ 2) : |q.y - p.y| ≤ d := by
  apply abs_le_of_sq_le_sq hd
  unfold Vector2.distance2 at h
  nlinarith [sq_nonneg (q.x - p.x)]

theorem quotient_close {o w x1 x2 d : ℚ} (hw : 0 < w) (h : |x1 - x2| ≤ d)
    (hdw : d ≤ w) : (x1 - o) / w ≤ (x2 - o) / w + 1 := by
  have h1 : x1 - x2 ≤ w := le_trans (le_trans (le_abs_self _) h) hdw
  have e : (x2 - o) / w + 1 = (x2 - o + w) / w := by field_simp
  rw [e, div_le_div_iff_of_pos_right hw]
  linarith

theorem mem_range'_one {s n m : ℕ} (h1 : s ≤ m) (h2 : m < s + n) :
    m ∈ List.range' s n :=
  List.mem_range'.mpr ⟨m - s, by omega, by omega⟩

namespace Grid

variable {Body : Type}

theorem rawCol_close {g : Grid Body} {p q : Vector2} {d : ℚ}
    (hw : 0 < g.cellSize.x) (h : |p.x - q.x| ≤ d) (hdw : d ≤ g.cellSize.x) :
    g.rawCol p ≤ g.rawCol q + 1 := by
  unfold rawCol
  apply truncToZero_le_add_one
  exact quotient_close hw h hdw

theorem rawRow_close {g : Grid Body} {p q : Vector2} {d : ℚ}
    (hw : 0 < g.cellSize.y) (h : |p.y - q.y| ≤ d) (hdw : d ≤ g.cellSize.y) :
    g.rawRow p ≤ g.rawRow q + 1 := by
  unfold rawRow
  apply truncToZero_le_add_one
  exact quotient_close hw h hdw

/-- Two positions at distance at most `d ≤ min(cell width, cell height)`
that both index successfully land in cells at Chebyshev distance ≤ 1. -/
theorem cellIndex_close {g : Grid Body} {p q : Vector2} {rcp rcq : ℕ × ℕ}
    (hp : g.getCellIndexPos p = .ok rcp) (hq : g.getCellIndexPos q = .ok rcq)
    {d : ℚ} (hd0 : 0 ≤ d) (hdx : d ≤ g.cellSize.x) (hdy : d ≤ g.cellSize.y)
    (hdist : Vector2.distance2 p q ≤ d ^ 2) :
    (rcp.1 : ℤ) ≤ rcq.1 + 1 ∧ (rcq.1 : ℤ) ≤ rcp.1 + 1 ∧
      (rcp.2 : ℤ) ≤ rcq.2 + 1 ∧ (rcq.2 : ℤ) ≤ rcp.2 + 1 := by
  obtain ⟨hx0, hy0, hr1, hc1, -, -⟩ := getCellIndexPos_ok_elim hp
  obtain ⟨-, -, hr2, hc2, -, -⟩ := getCellIndexPos_ok_elim hq
  have hwx : 0 < g.cellSize.x := lt_of_le_of_ne (le_trans hd0 hdx) (Ne.symm hx0)
  have hwy : 0 < g.cellSize.y := lt_of_le_of_ne (le_trans hd0 hdy) (Ne.symm hy0)
  have hax : |q.x - p.x| ≤ d := dist2_le_x hd0 hdist
  have hay : |q.y - p.y| ≤ d := dist2_le_y hd0 hdist
  have hax' : |p.x - q.x| ≤ d := abs_sub_comm q.x p.x ▸ hax
  have hay' : |p.y - q.y| ≤ d := abs_sub_comm q.y p.y ▸ hay
  rw [hr1, hc1, hr2, hc2]
  exact ⟨rawRow_close hwy hay' hdy, rawRow_close hwy hay hdy,
    rawCol_close hwx hax' hdx, rawCol_close hwx hax hdx⟩

end Grid

/-! ### Helper lemmas: counting -/

theorem length_filter_not_add {Body : Type} [DecidableEq Body] (b : Body) (l : List Body) :
    (l.filter fun x => decide (¬x = b)).length + (l.countP fun x => decide (x = b)) =
      l.length := by
  induction l with
  | nil => rfl
  | cons x xs ih =>
      by_cases hx : x = b <;>
        simp [List.filter_cons, List.countP_cons, hx, decide_not] at ih ⊢ <;>
        omega

theorem sum_update_length {Body : Type} {s : Finset (ℕ × ℕ)} {i : ℕ × ℕ} (hi : i ∈ s)
    (f : ℕ × ℕ → List Body) (v : List Body) :
    ∑ rc ∈ s, ((Function.update f i v) rc).length =
      v.length + ∑ rc ∈ s \ {i}, (f rc).length := by
  have h1 : ∀ rc, ((Function.update f i v) rc).length =
      Function.update (fun rc => (f rc).length) i v.length rc := by
    intro rc
    by_cases hrc : rc = i
    · subst hrc; rw [Function.update_same, Function.update_same]
    · rw [Function.update_noteq hrc, Function.update_noteq hrc]
  rw [Finset.sum_congr rfl fun rc _ => h1 rc]
  exact Finset.sum_update_of_mem hi _ _

namespace Grid

variable {Body : Type}

/-- The index set of the grid's matrix of cells. -/
theorem mem_gridRange (g : Grid Body) {rc : ℕ × ℕ} (h1 : rc.1 < g.rows)
    (h2 : rc.2 < g.columns) :
    rc ∈ Finset.range g.rows ×ˢ Finset.range g.columns :=
  Finset.mem_product.mpr ⟨Finset.mem_range.mpr h1, Finset.mem_range.mpr h2⟩

end Grid

/-! ### Helper lemmas: the 4-cell sweep -/

theorem symmetric_pair_equal_refl {Body : Type} [DecidableEq Body] (p : Body × Body) :
    symmetric_pair_equal p p = true := by
  unfold symmetric_pair_equal
  simp

theorem symmetric_pair_equal_fst_swap {Body : Type} [DecidableEq Body] (a b : Body)
    (r : Body × Body) :
    symmetric_pair_equal (a, b) r = symmetric_pair_equal (b, a) r := by
  unfold symmetric_pair_equal
  rw [decide_eq_decide]
  constructor
  · rintro (⟨h1, h2⟩ | ⟨h1, h2⟩)
    · exact Or.inr ⟨h2, h1⟩
    · exact Or.inl ⟨h2, h1⟩
  · rintro (⟨h1, h2⟩ | ⟨h1, h2⟩)
    · exact Or.inr ⟨h2, h1⟩
    · exact Or.inl ⟨h2, h1⟩

theorem symMem_insertPair_self {Body : Type} [DecidableEq Body] (s : List (Body × Body))
    (p : Body × Body) : symMem p (insertPair s p) := by
  unfold insertPair
  split_ifs with h
  · obtain ⟨q, hq, hqp⟩ := List.any_eq_true.mp h
    exact ⟨q, hq, (symmetric_pair_equal_comm p q).trans hqp⟩
  · exact ⟨p, List.mem_cons_self p s, symmetric_pair_equal_refl p⟩

theorem symMem_insertPair_mono {Body : Type} [DecidableEq Body] {p : Body × Body}
    {s : List (Body × Body)} (h : symMem p s) (q : Body × Body) :
    symMem p (insertPair s q) := by
  unfold insertPair
  split_ifs with hq
  · exact h
  · obtain ⟨r, hr, hrp⟩ := h
    exact ⟨r, List.mem_cons_of_mem _ hr, hrp⟩

theorem symMem_pairStep_mono {Body : Type} [DecidableEq Body] (near : Body → Body → Bool)
    {p : Body × Body} {s : List (Body × Body)} (h : symMem p s) (q : Body × Body) :
    symMem p (pairStep near s q) := by
  unfold pairStep
  split_ifs
  · exact symMem_insertPair_mono h q
  · exact h

theorem symMem_pairStep_self {Body : Type} [DecidableEq Body] {near : Body → Body → Bool}
    {q : Body × Body} (hq : near q.1 q.2 = true) (s : List (Body × Body)) :
    symMem q (pairStep near s q) := by
  unfold pairStep
  rw [if_pos hq]
  exact symMem_insertPair_self s q

theorem pairsOf_mem {α : Type} {a b : α} {l : List α} (ha : a ∈ l) (hb : b ∈ l)
    (hne : a ≠ b) : (a, b) ∈ pairsOf l ∨ (b, a) ∈ pairsOf l := by
  induction l with
  | nil => cases ha
  | cons x xs ih =>
      rcases List.mem_cons.mp ha with rfl | ha'
      · have hb' : b ∈ xs := by
          rcases List.mem_cons.mp hb with h | h
          · exact absurd h.symm hne
          · exact h
        exact Or.inl (by
          unfold pairsOf
          exact List.mem_append.mpr (Or.inl (List.mem_map.mpr ⟨b, hb', rfl⟩)))
      · rcases List.mem_cons.mp hb with rfl | hb'
        · exact Or.inr (by
            unfold pairsOf
            exact List.mem_append.mpr (Or.inl (List.mem_map.mpr ⟨a, ha', rfl⟩)))
        · rcases ih ha' hb' with h | h
          · exact Or.inl (by
              unfold pairsOf
              exact List.mem_append.mpr (Or.inr h))
          · exact Or.inr (by
              unfold pairsOf
              exact List.mem_append.mpr (Or.inr h))

/-- Any pair of in-range cells at Chebyshev distance at most 1 is covered by
a single sweep position `(row, col)` with `row, col ≥ 1`, each cell playing
the current, left, top, or top-left role, provided the grid has at least
two rows and two columns. -/
theorem sweep_cover {ra ca rb cb rows cols : ℕ}
    (h1 : ra < rows) (h2 : rb < rows) (h3 : ca < cols) (h4 : cb < cols)
    (h5 : 2 ≤ rows) (h6 : 2 ≤ cols)
    (hr1 : (ra : ℤ) ≤ rb + 1) (hr2 : (rb : ℤ) ≤ ra + 1)
    (hc1 : (ca : ℤ) ≤ cb + 1) (hc2 : (cb : ℤ) ≤ ca + 1) :
    ∃ row col, 1 ≤ row ∧ row < rows ∧ 1 ≤ col ∧ col < cols ∧
      (ra = row ∨ ra = row - 1) ∧ (rb = row ∨ rb = row - 1) ∧
      (ca = col ∨ ca = col - 1) ∧ (cb = col ∨ cb = col - 1) := by
  refine ⟨max (max ra rb) 1, max (max ca cb) 1, ?_, ?_, ?_, ?_, ?_, ?_, ?_, ?_⟩ <;> omega

namespace Grid

variable {Body : Type}

theorem mem_sweepPositions {g : Grid Body} {row col : ℕ}
    (h1 : 1 ≤ row) (h2 : row < g.rows) (h3 : 1 ≤ col) (h4 : col < g.columns) :
    (row, col) ∈ g.sweepPositions := by
  unfold sweepPositions
  refine List.mem_flatMap.mpr ⟨row, mem_range'_one h1 (by omega), ?_⟩
  exact List.mem_map.mpr ⟨col, mem_range'_one h3 (by omega), rfl⟩

theorem mem_sweepCells_of {g : Grid Body} {x : Body} {rc : ℕ × ℕ} {row col : ℕ}
    (hmem : x ∈ g.cells rc) (hr : rc.1 = row ∨ rc.1 = row - 1)
    (hc : rc.2 = col ∨ rc.2 = col - 1) :
    x ∈ g.sweepCells (row, col) := by
  unfold sweepCells
  simp only [List.mem_append]
  obtain ⟨r0, c0⟩ := rc
  dsimp only at hr hc hmem
  rcases hr with rfl | rfl <;> rcases hc with rfl | rfl <;> tauto

end Grid

/-! ### Claim theorems -/

/-- Claim C3 (amended): in the validated build `getCellIndex` fails with an
out-of-range condition exactly when the computed truncated indices are
defined (nonzero cell dimensions, nonnegative truncations — otherwise the
`static_cast` to `size_t` is undefined behavior) and fall outside
`[0, rows) × [0, columns)`.  A position outside the bound is therefore not
always rejected: a position less than one cell before the left/top edge
truncates to index 0 and is accepted silently. -/
theorem getCellIndex_outOfRange_iff {Body : Type} (g : Grid Body) (p : Vector2) :
    g.getCellIndexPos p = .err .outOfRange ↔
      g.cellSize.x ≠ 0 ∧ g.cellSize.y ≠ 0 ∧ 0 ≤ g.rawRow p ∧ 0 ≤ g.rawCol p ∧
        (g.rows ≤ (g.rawRow p).toNat ∨ g.columns ≤ (g.rawCol p).toNat) := by
  unfold Grid.getCellIndexPos
  split_ifs with h1 h2 h3
  · simp only [Res.err.injEq]
    constructor
    · intro h; cases h
    · rintro ⟨hx, hy, -⟩; exact absurd h1 (by tauto)
  · simp only [Res.err.injEq]
    push_neg at h1
    constructor
    · intro h; cases h
    · rintro ⟨-, -, hr, hc, -⟩
      rcases h2 with h | h
      · exact absurd hr (not_le.mpr h)
      · exact absurd hc (not_le.mpr h)
  · push_neg at h1 h2
    simp only [true_iff]
    exact ⟨h1.1, h1.2, h2.1, h2.2, h3⟩
  · simp only [reduceCtorEq, false_iff]
    push_neg at h3
    rintro ⟨-, -, -, -, h | h⟩
    · exact absurd h (not_le.mpr h3.1)
    · exact absurd h (not_le.mpr h3.2)

/-- Claim C3 counterexample: the body `2` of `gridScenario` reports position
`(-10, 5)`, strictly outside the grid's 100×100 bound at the origin, yet
`getCellIndex` silently returns the in-range cell `(0, 0)` (the negative
column quotient `-1/2` truncates toward zero): an outside position is not
always mapped to an out-of-range failure. -/
theorem getCellIndex_outside_silently_accepted :
    ¬ gridScenario.bound.contains (gridScenario.posOf 2) ∧
      gridScenario.getCellIndex 2 = .ok (0, 0) :=
  ⟨by decide, by with_unfolding_all rfl⟩

/-- Claim C8: in the validated build, `queryDistance` and
`queryDistancePair` fail with an invalid-argument condition exactly when
the requested distance exceeds the smaller of the two cell dimensions. -/
theorem query_invalidArgument_iff {Body : Type} [DecidableEq Body] (g : Grid Body)
    (b : Body) (idx : ℕ × ℕ) (d : ℚ) :
    (g.queryDistance b idx d = .err .invalidArgument ↔
        min g.cellSize.x g.cellSize.y < d) ∧
      (g.queryDistancePair d = .err .invalidArgument ↔
        min g.cellSize.x g.cellSize.y < d) := by
  refine ⟨?_, ?_⟩
  · by_cases hd : min g.cellSize.x g.cellSize.y < d
    · refine ⟨fun _ => hd, fun _ => ?_⟩
      unfold Grid.queryDistance
      rw [if_pos hd]
    · refine ⟨fun h => ?_, fun h => absurd h hd⟩
      unfold Grid.queryDistance at h
      rw [if_neg hd] at h
      by_cases hb : g.rows ≤ idx.1 ∨ g.columns ≤ idx.2
      · rw [if_pos hb] at h; simp at h
      · rw [if_neg hb] at h; simp at h
  · by_cases hd : min g.cellSize.x g.cellSize.y < d
    · refine ⟨fun _ => hd, fun _ => ?_⟩
      unfold Grid.queryDistancePair
      rw [if_pos hd]
    · refine ⟨fun h => ?_, fun h => absurd h hd⟩
      unfold Grid.queryDistancePair at h
      rw [if_neg hd] at h
      simp at h

/-- Claim C9: on the §8 scenario grid (100×100 bound at the origin, 10 rows
and 5 columns), the body at `(14.4, 20.8)` maps to cell `(2, 0)`, and the
body at exactly the far corner `(100, 100)` fails with an out-of-range
condition in the validated build. -/
theorem getCellIndex_scenario :
    gridScenario.getCellIndex 0 = .ok (2, 0) ∧
      gridScenario.getCellIndex 1 = .err .outOfRange :=
  ⟨by with_unfolding_all rfl, by with_unfolding_all rfl⟩

/-- Claim C10: when a grid has a single row or a single column, the sweep
loops of `queryDistancePair` (which start at row 1 and column 1) visit no
position at all, so the query returns the empty set for every distance,
regardless of the grid's contents. -/
theorem queryDistancePair_degenerate_empty {Body : Type} [DecidableEq Body]
    (g : Grid Body) (hg : g.rows = 1 ∨ g.columns = 1) (d : ℚ) :
    g.queryDistancePairList d = [] ∧
      ∀ res, g.queryDistancePair d = .ok res → res = [] := by
  have hsweep : g.sweepPositions = [] := by
    unfold Grid.sweepPositions
    rcases hg with h | h
    · rw [h]; rfl
    · rw [h]; exact flatMap_const_nil _
  have hlist : g.queryDistancePairList d = [] := by
    unfold Grid.queryDistancePairList
    rw [hsweep]
    rfl
  refine ⟨hlist, fun res hres => ?_⟩
  unfold Grid.queryDistancePair at hres
  split_ifs at hres with h
  injection hres with h2
  rw [← h2]
  exact hlist

/-- Claim C10 witness: `gridOneCell` is a 1×1 grid holding two nearby
bodies, and `queryDistancePair` still returns the empty set. -/
theorem queryDistancePair_degenerate_empty_witness :
    gridOneCell.queryDistancePairList 1 = [] ∧
      ∀ res, gridOneCell.queryDistancePair 1 = .ok res → res = [] :=
  queryDistancePair_degenerate_empty gridOneCell (Or.inl rfl) 1

/-- Claim C5: the pair `(A, B)` hashes equal to and compares equal to
`(B, A)` under `symmetric_pair_hash` and `symmetric_pair_equal`, and
consequently the set returned by `queryDistancePair` never contains two
pairs with the same two elements in either order. -/
theorem symmetric_pair_dedup {Body : Type} [DecidableEq Body] (h : Body → ℕ)
    (A B : Body) (g : Grid Body) (d : ℚ) (res : List (Body × Body))
    (hres : g.queryDistancePair d = .ok res) :
    symmetric_pair_hash h (A, B) = symmetric_pair_hash h (B, A) ∧
      symmetric_pair_equal (A, B) (B, A) = true ∧
      res.Pairwise fun p q => symmetric_pair_equal p q = false := by
  refine ⟨Nat.xor_comm _ _, ?_, ?_⟩
  · unfold symmetric_pair_equal
    simp
  · unfold Grid.queryDistancePair at hres
    split_ifs at hres with hd
    injection hres with h2
    rw [← h2]
    exact g.queryDistancePairList_pairwise d

/-- Claim C1 (amended): for a grid with at least 2 rows and 2 columns whose
bodies all reside in their computed cells, and a distance `d` with
`0 ≤ d ≤ min(cell width, cell height)`, `queryDistancePair d` contains
every unordered pair of distinct bodies at Euclidean distance at most `d`
(up to the symmetric pair equality), and every cell is reachable by the
sweep as the current, left, top, or top-left cell (`r = row ∨ r = row - 1`
and `c = col ∨ c = col - 1`) of some sweep position with
`1 ≤ row < rows`, `1 ≤ col < columns`. -/
theorem queryDistancePair_complete {Body : Type} [DecidableEq Body] (g : Grid Body)
    (hwp : g.wellPlaced) (hrows : 2 ≤ g.rows) (hcols : 2 ≤ g.columns) (d : ℚ)
    (hd0 : 0 ≤ d) (hdm : d ≤ min g.cellSize.x g.cellSize.y) :
    (∀ a b, g.inGrid a → g.inGrid b → a ≠ b →
        Vector2.distance2 (g.posOf a) (g.posOf b) ≤ d ^ 2 →
        ∃ res, g.queryDistancePair d = .ok res ∧ symMem (a, b) res) ∧
      ∀ r c, r < g.rows → c < g.columns → ∃ row col, 1 ≤ row ∧ row < g.rows ∧
        1 ≤ col ∧ col < g.columns ∧
        (r = row ∨ r = row - 1) ∧ (c = col ∨ c = col - 1) := by
  obtain ⟨hdx, hdy⟩ := le_min_iff.mp hdm
  constructor
  · rintro a b ⟨rca, har, hac, hamem⟩ ⟨rcb, hbr, hbc, hbmem⟩ hne hdist
    have hia : g.getCellIndex a = .ok rca := hwp rca.1 har rca.2 hac a hamem
    have hib : g.getCellIndex b = .ok rcb := hwp rcb.1 hbr rcb.2 hbc b hbmem
    obtain ⟨c1, c2, c3, c4⟩ := Grid.cellIndex_close hia hib hd0 hdx hdy hdist
    obtain ⟨row, col, e1, e2, e3, e4, era, erb, eca, ecb⟩ :=
      sweep_cover har hbr hac hbc hrows hcols c1 c2 c3 c4
    have hmema : a ∈ g.sweepCells (row, col) := Grid.mem_sweepCells_of hamem era eca
    have hmemb : b ∈ g.sweepCells (row, col) := Grid.mem_sweepCells_of hbmem erb ecb
    have hplist : (row, col) ∈ g.sweepPositions := Grid.mem_sweepPositions e1 e2 e3 e4
    have hnear : g.nearbyPair d a b = true := decide_eq_true hdist
    have hnear2 : g.nearbyPair d b a = true :=
      decide_eq_true (Vector2.distance2_comm (g.posOf a) (g.posOf b) ▸ hdist)
    refine ⟨_, Grid.queryDistancePair_ok hdm, ?_⟩
    unfold Grid.queryDistancePairList
    rcases pairsOf_mem hmema hmemb hne with hp | hp
    · exact foldl_reach (symMem (a, b))
        (fun s y hs => foldl_preserve (symMem (a, b))
          (fun s' q hs' => symMem_pairStep_mono _ hs' q) (pairsOf (g.sweepCells y)) s hs)
        (fun s => foldl_reach (symMem (a, b))
          (fun s' q hs' => symMem_pairStep_mono _ hs' q)
          (fun s' => symMem_pairStep_self hnear s')
          (pairsOf (g.sweepCells (row, col))) s hp)
        g.sweepPositions [] hplist
    · have hswap : ∀ t : List (Body × Body), symMem (b, a) t → symMem (a, b) t := by
        rintro t ⟨q, hq, hqe⟩
        exact ⟨q, hq, (symmetric_pair_equal_fst_swap a b q).trans hqe⟩
      refine hswap _ (foldl_reach (symMem (b, a))
        (fun s y hs => foldl_preserve (symMem (b, a))
          (fun s' q hs' => symMem_pairStep_mono _ hs' q) (pairsOf (g.sweepCells y)) s hs)
        (fun s => foldl_reach (symMem (b, a))
          (fun s' q hs' => symMem_pairStep_mono _ hs' q)
          (fun s' => symMem_pairStep_self hnear2 s')
          (pairsOf (g.sweepCells (row, col))) s hp)
        g.sweepPositions [] hplist)
  · intro r c hr hc
    obtain ⟨row, col, e1, e2, e3, e4, era, -, eca, -⟩ :=
      sweep_cover hr hr hc hc hrows hcols (by omega) (by omega) (by omega) (by omega)
    exact ⟨row, col, e1, e2, e3, e4, era, eca⟩

/-- Claim C1 counterexample: on a 1×1 grid (`gridOneCell`) every hypothesis
of the claim holds — the residence invariant, `0 ≤ 1 ≤ min(cell sizes)`,
two distinct bodies at distance well below 1 — yet `queryDistancePair`
returns the empty set, missing the qualifying pair: the sweep loops
starting at `(1, 1)` visit nothing, so the claim is false as stated for
grids with a single row or column. -/
theorem queryDistancePair_misses_pair_one_cell_grid :
    gridOneCell.wellPlaced ∧ (0 : ℚ) ≤ 1 ∧
      (1 : ℚ) ≤ min gridOneCell.cellSize.x gridOneCell.cellSize.y ∧
      gridOneCell.inGrid 0 ∧ gridOneCell.inGrid 1 ∧ (0 : ℕ) ≠ 1 ∧
      Vector2.distance2 (gridOneCell.posOf 0) (gridOneCell.posOf 1) ≤ 1 ^ 2 ∧
      gridOneCell.queryDistancePair 1 = .ok [] ∧
      ¬ symMem ((0 : ℕ), (1 : ℕ)) [] := by
  refine ⟨by with_unfolding_all decide, by norm_num, by with_unfolding_all decide,
    ⟨(0, 0), by decide, by decide, by decide⟩, ⟨(0, 0), by decide, by decide, by decide⟩,
    by decide, by with_unfolding_all decide, by with_unfolding_all rfl, by decide⟩

/-- Claim C1 witness: on the 2×2 grid `gridTwoByTwo` the amended claim's
hypotheses hold with `d = 1`. -/
theorem queryDistancePair_complete_witness :
    (∀ a b, gridTwoByTwo.inGrid a → gridTwoByTwo.inGrid b → a ≠ b →
        Vector2.distance2 (gridTwoByTwo.posOf a) (gridTwoByTwo.posOf b) ≤ 1 ^ 2 →
        ∃ res, gridTwoByTwo.queryDistancePair 1 = .ok res ∧ symMem (a, b) res) ∧
      ∀ r c, r < gridTwoByTwo.rows → c < gridTwoByTwo.columns →
        ∃ row col, 1 ≤ row ∧ row < gridTwoByTwo.rows ∧
          1 ≤ col ∧ col < gridTwoByTwo.columns ∧
          (r = row ∨ r = row - 1) ∧ (c = col ∨ c = col - 1) :=
  queryDistancePair_complete gridTwoByTwo (by with_unfolding_all decide)
    (by decide) (by decide) 1 (by norm_num) (by with_unfolding_all decide)

/-- Claim C2: under the residence invariant, with the queried body's own
cell index passed in and a distance within the cell-size precondition,
`queryDistance` returns exactly the bodies of the grid other than the
queried one within Euclidean distance `d`: the queried body is never
returned, every returned body is in the grid and within the bound, and
every other in-range body is returned. -/
theorem queryDistance_correct {Body : Type} [DecidableEq Body] (g : Grid Body)
    (hwp : g.wellPlaced) (b : Body) (bidx : ℕ × ℕ)
    (hbi : g.getCellIndex b = .ok bidx) (d : ℚ) (hd0 : 0 ≤ d)
    (hdm : d ≤ min g.cellSize.x g.cellSize.y) :
    ∃ res, g.queryDistance b bidx d = .ok res ∧
      b ∉ res ∧
      (∀ x ∈ res, g.inGrid x ∧ Vector2.distance2 (g.posOf x) (g.posOf b) ≤ d ^ 2) ∧
      ∀ x, g.inGrid x → x ≠ b →
        Vector2.distance2 (g.posOf x) (g.posOf b) ≤ d ^ 2 → x ∈ res := by
  obtain ⟨hdx, hdy⟩ := le_min_iff.mp hdm
  obtain ⟨-, -, -, -, hbr, hbc⟩ := Grid.getCellIndexPos_ok_elim hbi
  have hmem_same : ∀ x, x ∈ g.queriedInSameCell b bidx d ↔
      x ∈ g.cells bidx ∧ x ≠ b ∧
        Vector2.distance2 (g.posOf x) (g.posOf b) ≤ d ^ 2 := by
    intro x
    unfold Grid.queriedInSameCell Grid.nearbyTo
    simp only [List.mem_filter, Bool.and_eq_true, decide_eq_true_eq]
  have hmem_adj : ∀ x, x ∈ g.queriedInAdjacentCells (g.posOf b) d bidx ↔
      ∃ rc : ℤ × ℤ, (∃ o ∈ Grid.adjacentOffsets, ((bidx.1 : ℤ) + o.2, (bidx.2 : ℤ) + o.1) = rc) ∧
        (0 ≤ rc.1 ∧ rc.1 < (g.rows : ℤ) ∧ 0 ≤ rc.2 ∧ rc.2 < (g.columns : ℤ)) ∧
        x ∈ g.cells (rc.1.toNat, rc.2.toNat) ∧
        Vector2.distance2 (g.posOf x) (g.posOf b) ≤ d ^ 2 := by
    intro x
    unfold Grid.queriedInAdjacentCells Grid.adjacentCellIndices Grid.nearbyTo
    simp only [List.mem_flatMap, List.mem_filter, List.mem_map, decide_eq_true_eq]
    tauto
  have hoffne : ∀ o ∈ Grid.adjacentOffsets, ¬(o.1 = 0 ∧ o.2 = 0) := by decide
  refine ⟨g.queriedInSameCell b bidx d ++ g.queriedInAdjacentCells (g.posOf b) d bidx,
    ?_, ?_, ?_, ?_⟩
  · unfold Grid.queryDistance
    rw [if_neg (not_lt.mpr hdm),
      if_neg (not_or.mpr ⟨not_le.mpr hbr, not_le.mpr hbc⟩)]
  · intro hmem
    rcases List.mem_append.mp hmem with hs | ha
    · obtain ⟨-, hne, -⟩ := (hmem_same b).mp hs
      exact hne rfl
    · obtain ⟨rc, ⟨o, ho, htr⟩, hbnd, hcellmem, -⟩ := (hmem_adj b).mp ha
      subst htr
      have h1 : ((bidx.1 : ℤ) + o.2).toNat < g.rows := by omega
      have h2 : ((bidx.2 : ℤ) + o.1).toNat < g.columns := by omega
      have hw := hwp _ h1 _ h2 b hcellmem
      have heq := hbi.symm.trans hw
      injection heq with heq2
      have f1 := congrArg Prod.fst heq2
      have f2 := congrArg Prod.snd heq2
      simp only at f1 f2
      exact hoffne o ho ⟨by omega, by omega⟩
  · intro x hx
    rcases List.mem_append.mp hx with hs | ha
    · obtain ⟨hc, -, hdist⟩ := (hmem_same x).mp hs
      exact ⟨⟨bidx, hbr, hbc, hc⟩, hdist⟩
    · obtain ⟨rc, -, hbnd, hc, hdist⟩ := (hmem_adj x).mp ha
      exact ⟨⟨(rc.1.toNat, rc.2.toNat), by omega, by omega, hc⟩, hdist⟩
  · rintro x ⟨rcx, hxr, hxc, hxmem⟩ hne hdist
    have hxi : g.getCellIndex x = .ok rcx := hwp rcx.1 hxr rcx.2 hxc x hxmem
    obtain ⟨c1, c2, c3, c4⟩ := Grid.cellIndex_close hxi hbi hd0 hdx hdy hdist
    by_cases hsame : rcx = bidx
    · subst hsame
      exact List.mem_append.mpr (Or.inl ((hmem_same x).mpr ⟨hxmem, hne, hdist⟩))
    · have hd1 : (rcx.2 : ℤ) - bidx.2 = -1 ∨ (rcx.2 : ℤ) - bidx.2 = 0 ∨
          (rcx.2 : ℤ) - bidx.2 = 1 := by omega
      have hd2 : (rcx.1 : ℤ) - bidx.1 = -1 ∨ (rcx.1 : ℤ) - bidx.1 = 0 ∨
          (rcx.1 : ℤ) - bidx.1 = 1 := by omega
      have hno : ¬((rcx.2 : ℤ) - bidx.2 = 0 ∧ (rcx.1 : ℤ) - bidx.1 = 0) := by
        rintro ⟨z1, z2⟩
        refine hsame (Prod.ext ?_ ?_) <;> omega
      have ho : ((rcx.2 : ℤ) - bidx.2, (rcx.1 : ℤ) - bidx.1) ∈ Grid.adjacentOffsets := by
        rcases hd1 with h1 | h1 | h1 <;> rcases hd2 with h2 | h2 | h2 <;>
          first
          | (rw [h1, h2]; decide)
          | exact absurd ⟨h1, h2⟩ hno
      refine List.mem_append.mpr (Or.inr ((hmem_adj x).mpr
        ⟨((rcx.1 : ℤ), (rcx.2 : ℤ)), ⟨_, ho, ?_⟩, ⟨by omega, by omega, by omega, by omega⟩,
          ?_, hdist⟩))
      · refine Prod.ext ?_ ?_ <;> simp
      · simpa using hxmem

/-- Claim C2 witness: querying body `1` of `gridTwoByTwo` in its cell
`(1, 1)` with distance 1. -/
theorem queryDistance_correct_witness :
    ∃ res, gridTwoByTwo.queryDistance 1 (1, 1) 1 = .ok res ∧
      (1 : ℕ) ∉ res ∧
      (∀ x ∈ res, gridTwoByTwo.inGrid x ∧
        Vector2.distance2 (gridTwoByTwo.posOf x) (gridTwoByTwo.posOf 1) ≤ 1 ^ 2) ∧
      ∀ x, gridTwoByTwo.inGrid x → x ≠ 1 →
        Vector2.distance2 (gridTwoByTwo.posOf x) (gridTwoByTwo.posOf 1) ≤ 1 ^ 2 →
        x ∈ res :=
  queryDistance_correct gridTwoByTwo (by with_unfolding_all decide) 1 (1, 1)
    (by with_unfolding_all rfl) 1 (by norm_num) (by with_unfolding_all decide)

/-- Claim C4: the counter returned by `getBodyCount` equals the sum of the
sizes of all cells, and this invariant is preserved by every mutation
operation: `addBody`, `removeBody` (on a cell of the grid),
`updateBodyCell` (with a previous cell of the grid), and `clearAllBodies`. -/
theorem countInv_preserved {Body : Type} [DecidableEq Body] (g : Grid Body)
    (hinv : g.countInv) :
    (∀ b g' rc, g.addBody b = .ok (g', rc) → g'.countInv) ∧
      (∀ b idx, idx.1 < g.rows → idx.2 < g.columns → (g.removeBody b idx).1.countInv) ∧
      (∀ b prev g' rc, prev.1 < g.rows → prev.2 < g.columns →
        g.updateBodyCell b prev = .ok (g', rc) → g'.countInv) ∧
      g.clearAllBodies.countInv := by
  unfold Grid.countInv Grid.getBodyCount Grid.cellSum at hinv ⊢
  refine ⟨?_, ?_, ?_, ?_⟩
  · -- addBody
    intro b g' rc h
    unfold Grid.addBody at h
    split at h
    next e heq => cases h
    next a hcell =>
      cases h
      obtain ⟨-, -, -, -, hr, hc⟩ := Grid.getCellIndexPos_ok_elim hcell
      have ha := g.mem_gridRange hr hc
      show g.num_bodies + 1 = ∑ p ∈ Finset.range g.rows ×ˢ Finset.range g.columns,
        ((Function.update g.cells rc (g.cells rc ++ [b])) p).length
      rw [sum_update_length ha]
      rw [Finset.sum_eq_sum_diff_singleton_add ha _] at hinv
      simp only [List.length_append, List.length_cons, List.length_nil]
      omega
  · -- removeBody
    intro b idx h1 h2
    have ha := g.mem_gridRange h1 h2
    show g.num_bodies - ((g.cells idx).countP fun x => decide (x = b)) =
      ∑ rc ∈ Finset.range g.rows ×ˢ Finset.range g.columns,
        ((Function.update g.cells idx ((g.cells idx).filter fun x => decide (¬x = b)))
          rc).length
    rw [sum_update_length ha]
    rw [Finset.sum_eq_sum_diff_singleton_add ha _] at hinv
    have hf := length_filter_not_add b (g.cells idx)
    have hcle := List.countP_le_length (p := fun x => decide (x = b)) (l := g.cells idx)
    omega
  · -- updateBodyCell
    intro b prev g' rc h1 h2 h
    unfold Grid.updateBodyCell at h
    split at h
    next e heq => cases h
    next a hcell =>
      obtain ⟨-, -, -, -, hr, hc⟩ := Grid.getCellIndexPos_ok_elim hcell
      split_ifs at h with hsame hmem
      · cases h
        exact hinv
      · cases h
        have ha := g.mem_gridRange hr hc
        have hp0 := g.mem_gridRange h1 h2
        have hp : prev ∈ (Finset.range g.rows ×ˢ Finset.range g.columns) \ {rc} :=
          Finset.mem_sdiff.mpr ⟨hp0, Finset.not_mem_singleton.mpr fun hh => hsame hh.symm⟩
        show g.num_bodies = ∑ p ∈ Finset.range g.rows ×ˢ Finset.range g.columns,
          ((Function.update (Function.update g.cells prev ((g.cells prev).erase b)) rc
            (g.cells rc ++ [b])) p).length
        rw [sum_update_length ha, sum_update_length hp]
        rw [Finset.sum_eq_sum_diff_singleton_add ha _,
          Finset.sum_eq_sum_diff_singleton_add hp _] at hinv
        have herase := List.length_erase_of_mem hmem
        have hlenpos : 0 < (g.cells prev).length := List.length_pos.mpr
          (List.ne_nil_of_mem hmem)
        simp only [List.length_append, List.length_cons, List.length_nil]
        omega
  · -- clearAllBodies
    show (0 : ℕ) = _
    symm
    refine Finset.sum_eq_zero fun rc hrc => ?_
    obtain ⟨hr, hc⟩ := Finset.mem_product.mp hrc
    rw [Finset.mem_range] at hr hc
    show (if rc.1 < g.rows ∧ rc.2 < g.columns then ([] : List Body) else g.cells rc).length = 0
    rw [if_pos ⟨hr, hc⟩]
    rfl

/-- Claim C4 witness: the invariant holds for `gridTwoByTwo` and is
preserved by its mutations. -/
theorem countInv_preserved_witness :
    (∀ b g' rc, gridTwoByTwo.addBody b = .ok (g', rc) → g'.countInv) ∧
      (∀ b idx, idx.1 < gridTwoByTwo.rows → idx.2 < gridTwoByTwo.columns →
        (gridTwoByTwo.removeBody b idx).1.countInv) ∧
      (∀ b prev g' rc, prev.1 < gridTwoByTwo.rows → prev.2 < gridTwoByTwo.columns →
        gridTwoByTwo.updateBodyCell b prev = .ok (g', rc) → g'.countInv) ∧
      gridTwoByTwo.clearAllBodies.countInv :=
  countInv_preserved gridTwoByTwo (by with_unfolding_all decide)

/-- Claim C7: when the body's current position maps to the same cell as the
supplied previous cell, `updateBodyCell` returns the identical cell
reference and leaves the entire grid state unchanged. -/
theorem updateBodyCell_same_cell_noop {Body : Type} [DecidableEq Body]
    (g : Grid Body) (b : Body) (prev : ℕ × ℕ)
    (h : g.getCellIndex b = .ok prev) :
    g.updateBodyCell b prev = .ok (g, prev) := by
  unfold Grid.updateBodyCell
  rw [h]
  simp

/-- Claim C7 witness: body `0` of `gridTwoByTwo` still maps to its cell
`(0, 0)`, and relocation is a no-op there. -/
theorem updateBodyCell_same_cell_noop_witness :
    gridTwoByTwo.updateBodyCell 0 (0, 0) = .ok (gridTwoByTwo, (0, 0)) :=
  updateBodyCell_same_cell_noop gridTwoByTwo 0 (0, 0) (by with_unfolding_all rfl)

/-- Claim C6: `removeBody(b, c)` removes from `c` exactly the handles whose
pointed-to body is identical to `b`, returns that number, decrements the
live count by it (exact as long as the count does not exceed the live
count, which the `num_bodies` invariant guarantees), touches no other cell,
and is a no-op returning 0 — with no error — when no handle in `c` points
to `b`. -/
theorem removeBody_spec {Body : Type} [DecidableEq Body] (g : Grid Body) (b : Body)
    (idx : ℕ × ℕ)
    (hn : ((g.cells idx).countP fun x => decide (x = b)) ≤ g.num_bodies) :
    (g.removeBody b idx).2 = ((g.cells idx).countP fun x => decide (x = b)) ∧
      (g.removeBody b idx).1.cells idx = ((g.cells idx).filter fun x => decide (¬x = b)) ∧
      (∀ rc, rc ≠ idx → (g.removeBody b idx).1.cells rc = g.cells rc) ∧
      ((g.removeBody b idx).1.num_bodies : ℤ) = (g.num_bodies : ℤ) - (g.removeBody b idx).2 ∧
      ((g.removeBody b idx).2 = 0 → (g.removeBody b idx).1 = g) := by
  refine ⟨rfl, ?_, ?_, ?_, ?_⟩
  · exact Function.update_same idx _ g.cells
  · intro rc hrc
    exact Function.update_noteq hrc _ g.cells
  · show ((g.num_bodies - (g.cells idx).countP fun x => decide (x = b) : ℕ) : ℤ) = _
    rw [Nat.cast_sub hn]
    rfl
  · intro h0
    have hall : ∀ x ∈ g.cells idx, ¬(decide (x = b) = true) :=
      List.countP_eq_zero.mp h0
    have hfilter : ((g.cells idx).filter fun x => decide (¬x = b)) = g.cells idx := by
      refine List.filter_eq_self.mpr fun a ha => ?_
      simpa using fun hab => hall a ha (by simpa using hab)
    show ({ g with
        cells := Function.update g.cells idx ((g.cells idx).filter fun x => decide (¬x = b)),
        num_bodies := g.num_bodies - (g.cells idx).countP fun x => decide (x = b) } : Grid Body) = g
    rw [hfilter, Function.update_eq_self,
      show ((g.cells idx).countP fun x => decide (x = b)) = 0 from h0]
    rfl

/-- Claim C6 witness: removing body `0` from its cell `(0, 0)` of
`gridTwoByTwo`. -/
theorem removeBody_spec_witness :
    (gridTwoByTwo.removeBody 0 (0, 0)).2 =
        ((gridTwoByTwo.cells (0, 0)).countP fun x => decide (x = 0)) ∧
      (gridTwoByTwo.removeBody 0 (0, 0)).1.cells (0, 0) =
        ((gridTwoByTwo.cells (0, 0)).filter fun x => decide (¬x = 0)) ∧
      (∀ rc, rc ≠ (0, 0) → (gridTwoByTwo.removeBody 0 (0, 0)).1.cells rc =
        gridTwoByTwo.cells rc) ∧
      ((gridTwoByTwo.removeBody 0 (0, 0)).1.num_bodies : ℤ) =
        (gridTwoByTwo.num_bodies : ℤ) - (gridTwoByTwo.removeBody 0 (0, 0)).2 ∧
      ((gridTwoByTwo.removeBody 0 (0, 0)).2 = 0 →
        (gridTwoByTwo.removeBody 0 (0, 0)).1 = gridTwoByTwo) :=
  removeBody_spec gridTwoByTwo 0 (0, 0) (by with_unfolding_all decide)

/-- Claim C5 witness: instantiation on the concrete one-cell grid. -/
theorem symmetric_pair_dedup_witness :
    symmetric_pair_hash id (0, 1) = symmetric_pair_hash id (1, 0) ∧
      symmetric_pair_equal (0, 1) (1, 0) = true ∧
      List.Pairwise (fun p q => symmetric_pair_equal p q = false) ([] : List (ℕ × ℕ)) :=
  symmetric_pair_dedup id 0 1 gridOneCell 1 [] (by with_unfolding_all rfl)

end Spatial
